import Mathlib

/-!
Verification of the TycoonCraft server-side economy engine.

The definitions below are a shallow embedding of the Python backend
(`backend/game/views.py`, `backend/game/config.py`, `backend/game/models.py`):

* decimal amounts and timestamps become `ℚ` (timestamps are seconds on an
  absolute axis, timestamp differences are `total_seconds`);
* Django rows become Lean structures; querysets become lists filtered with
  the same predicates and processed in stable id order, exactly as the ORM
  iterates them;
* JSON modifier dicts become the `Modifier` structure with the same
  defaulted field reads;
* external effects (the OpenAI generation and image calls, rate-limit
  windows) are passed in as explicit oracle arguments, since the claims only
  depend on whether they succeed.
-/

/-! ## Era table (`config.py`) -/

def ERAS : List String :=
  ["Hunter-Gatherer", "Agriculture", "Metallurgy", "Steam & Industry",
   "Electric Age", "Computing", "Futurism", "Interstellar", "Arcana", "Beyond"]

/-- `list.index(x)` from Python, returning `none` instead of raising. -/
def eraIndex : List String → String → Option Nat
  | [], _ => none
  | e :: rest, x => if e = x then some 0 else (eraIndex rest x).map (· + 1)

/-- `config.get_next_era`: the next era in sequence, or `none` at the end
or for an unknown era. -/
def get_next_era (current : String) : Option String :=
  match eraIndex ERAS current with
  | some i => if i + 1 < ERAS.length then ERAS.get? (i + 1) else none
  | none => none

/-- `config.get_higher_era`: the era with the larger index; falls back to
the first argument when either lookup fails. -/
def get_higher_era (a b : String) : String :=
  match eraIndex ERAS a, eraIndex ERAS b with
  | some i, some j => (ERAS.get? (max i j)).getD a
  | _, _ => a

/-- `config.ERA_CRAFTING_COSTS` with the products from the source evaluated. -/
def ERA_CRAFTING_COSTS : List (String × ℚ) :=
  [("Hunter-Gatherer", 100), ("Agriculture", 750), ("Metallurgy", 5000),
   ("Steam & Industry", 31250), ("Electric Age", 187500), ("Computing", 1093750),
   ("Futurism", 6250000), ("Interstellar", 35156250), ("Arcana", 195312500),
   ("Beyond", 1074218750)]

/-- `ERA_CRAFTING_COSTS.get(era, 50)` as used in `craft_objects`. -/
def crafting_cost_of (era : String) : ℚ :=
  ((ERA_CRAFTING_COSTS.lookup era).getD 50)

/-! ## Data model (`models.py`) -/

/-- One entry of a `GameObject.global_modifiers` JSON list, with the
defaults `views.py` applies on read (`active_when`, `income_multiplier`,
`stacking`, `affected_categories`). -/
structure Modifier where
  active_when : String
  affected_categories : List String
  income_multiplier : ℚ
  stacking : String
deriving DecidableEq

/-- `models.GameObject`. Decimal fields become `ℚ`. -/
structure GameObject where
  id : Nat
  object_name : String
  era_name : String
  is_keystone : Bool
  is_starter : Bool
  category : String
  cost : ℚ
  time_crystal_cost : ℚ
  income_per_second : ℚ
  time_crystal_generation : ℚ
  build_time_sec : Int
  operation_duration_sec : Int
  retire_payout_coins_pct : ℚ
  sellback_pct : ℚ
  cap_per_civ : Option Int
  footprint_w : Int
  footprint_h : Int
  global_modifiers : List Modifier
deriving DecidableEq

/-- `models.PlacedObject` (the player foreign key is implicit: a
`PlayerState` owns its list of placed objects). -/
structure PlacedObject where
  id : Nat
  game_object : GameObject
  x : Int
  y : Int
  placed_at : ℚ
  build_complete_at : ℚ
  retire_at : Option ℚ
  is_operational : Bool
  is_building : Bool
deriving DecidableEq

/-- The per-player slice of the store: `models.PlayerProfile` together with
the player's `PlacedObject`, `EraUnlock` and `Discovery` rows.  Discoveries
and unlocks are keyed by the unique `object_name` / `era_name`. -/
structure PlayerState where
  coins : ℚ
  time_crystals : ℚ
  current_era : String
  last_coin_update : ℚ
  placed : List PlacedObject
  era_unlocks : List String
  discoveries : List String
deriving DecidableEq

/-- `get_or_create` on a set-semantics table keyed by a string. -/
def insertNew (x : String) (l : List String) : List String :=
  if x ∈ l then l else l ++ [x]

/-! ## Economy Reconciler (`views.update_player_coins`) -/

/-- Filter of the `completed_buildings` queryset:
`is_building=True, build_complete_at__lte=now`. -/
def buildCompleted (now : ℚ) (p : PlacedObject) : Bool :=
  p.is_building && decide (p.build_complete_at ≤ now)

/-- The `completed_buildings.update(is_building=False, is_operational=True)`
write applied to one row. -/
def completeBuild (p : PlacedObject) : PlacedObject :=
  { p with is_building := false, is_operational := true }

def buildFix (now : ℚ) (p : PlacedObject) : PlacedObject :=
  if buildCompleted now p then completeBuild p else p

/-- `Discovery.objects.get_or_create` over
`GameObject.objects.filter(is_starter=True, era_name=era)`. -/
def grantStarters (catalog : List GameObject) (era : String)
    (ds : List String) : List String :=
  (catalog.filter (fun o => o.is_starter && o.era_name == era)).foldl
    (fun acc o => insertNew o.object_name acc) ds

/-- The keystone branch of the build-completion phase, for a single
completed building: unlock `get_next_era` of the keystone's own era when it
exists and is not yet unlocked, set `current_era`, and grant that era's
starter discoveries. -/
def processKeystone (catalog : List GameObject) (s : PlayerState)
    (p : PlacedObject) : PlayerState :=
  if p.game_object.is_keystone then
    match get_next_era p.game_object.era_name with
    | some era =>
        if era ∈ s.era_unlocks then s
        else { s with era_unlocks := s.era_unlocks ++ [era],
                      current_era := era,
                      discoveries := grantStarters catalog era s.discoveries }
    | none => s
  else s

/-- Phase 1 of `update_player_coins` (`views.py:71-100`): keystone side
effects for each completed building, then the batch
`is_building=False, is_operational=True` update. -/
def buildPhase (catalog : List GameObject) (now : ℚ) (s : PlayerState) :
    PlayerState :=
  let completed := s.placed.filter (buildCompleted now)
  let s1 := completed.foldl (processKeystone catalog) s
  { s1 with placed := s1.placed.map (buildFix now) }

/-- Filter of the `retiring_objects` queryset:
`is_operational=True, retire_at__lte=now`. -/
def retiringNow (now : ℚ) (p : PlacedObject) : Bool :=
  p.is_operational &&
    (match p.retire_at with
     | some r => decide (r ≤ now)
     | none => false)

def retireFix (now : ℚ) (p : PlacedObject) : PlacedObject :=
  if retiringNow now p then { p with is_operational := false } else p

/-- Phase 2 of `update_player_coins` (`views.py:102-121`): credit
`cost × retire_payout_coins_pct` for each retiring object and flag it
non-operational (soft retirement; the row is kept). -/
def retirePhase (now : ℚ) (s : PlayerState) : PlayerState :=
  let retiring := s.placed.filter (retiringNow now)
  let coins' := retiring.foldl
    (fun c p => c + p.game_object.cost * p.game_object.retire_payout_coins_pct)
    s.coins
  { s with coins := coins', placed := s.placed.map (retireFix now) }

/-- Filter of the accrual queryset (`views.py:128-133`):
`is_operational=True` and `retire_at` null or `> now`. -/
def operationalAt (now : ℚ) (p : PlacedObject) : Bool :=
  p.is_operational &&
    (match p.retire_at with
     | some r => decide (now < r)
     | none => true)

/-- The `modifier_map` entry for one category (`views.py:138-153`): over the
operational objects in order, over each object's modifiers in order, keep
`(income_multiplier, stacking)` for every occurrence of the category in
`affected_categories` of a modifier with `active_when == "operational"`. -/
def modsFor (ops : List PlacedObject) (cat : String) : List (ℚ × String) :=
  ops.flatMap (fun p =>
    p.game_object.global_modifiers.flatMap (fun m =>
      if m.active_when == "operational" then
        (m.affected_categories.filter (fun c => c == cat)).map
          (fun _ => (m.income_multiplier, m.stacking))
      else []))

/-- The per-object multiplier fold (`views.py:156-165`): start at 1,
multiply in `multiplicative` entries, add `(multiplier - 1)` otherwise. -/
def incomeMultiplier (ops : List PlacedObject) (cat : String) : ℚ :=
  (modsFor ops cat).foldl
    (fun acc ms => if ms.2 == "multiplicative" then acc * ms.1
                   else acc + (ms.1 - 1)) 1

/-- Phase 3 of `update_player_coins` (`views.py:123-176`): the elapsed
interval is `now - last_coin_update` (not clamped), income is summed with
per-category multipliers, crystal generation without. -/
def accrualPhase (now : ℚ) (s : PlayerState) : PlayerState :=
  let dt := now - s.last_coin_update
  let ops := s.placed.filter (operationalAt now)
  let total_income := ops.foldl
    (fun acc p => acc + p.game_object.income_per_second *
      incomeMultiplier ops p.game_object.category) 0
  let total_crystals := ops.foldl
    (fun acc p => acc + p.game_object.time_crystal_generation) 0
  { s with coins := s.coins + total_income * dt,
           time_crystals := s.time_crystals + total_crystals * dt,
           last_coin_update := now }

/-- `views.update_player_coins`, with the ambient `timezone.now()` passed as
the `now` argument and the global `GameObject` table as `catalog`. -/
def update_player_coins (catalog : List GameObject) (now : ℚ)
    (s : PlayerState) : PlayerState :=
  accrualPhase now (retirePhase now (buildPhase catalog now s))

example : get_next_era "Hunter-Gatherer" = some "Agriculture" := by decide
example : get_next_era "Beyond" = none := by decide
example : get_higher_era "Agriculture" "Computing" = "Computing" := by decide
example : crafting_cost_of "Agriculture" = 750 := by decide
example : crafting_cost_of "Atlantis" = 50 := by decide

/-! ## Helper lemmas -/

theorem filter_eq_nil_of_forall {α : Type} (p : α → Bool) (l : List α)
    (h : ∀ a ∈ l, p a = false) : l.filter p = [] := by
  induction l with
  | nil => rfl
  | cons a t ih =>
      simp only [List.filter_cons, h a (by simp)]
      exact ih fun b hb => h b (by simp [hb])

theorem map_eq_self_of_forall {α : Type} (f : α → α) (l : List α)
    (h : ∀ a ∈ l, f a = a) : l.map f = l := by
  induction l with
  | nil => rfl
  | cons a t ih =>
      simp only [List.map_cons, h a (by simp)]
      rw [ih fun b hb => h b (by simp [hb])]

/-- After the batch update, a row no longer satisfies the
`completed_buildings` filter. -/
theorem buildFix_clears (now : ℚ) (p : PlacedObject) :
    buildCompleted now (buildFix now p) = false := by
  by_cases h : buildCompleted now p = true
  · rw [buildFix, if_pos h]; rfl
  · rw [buildFix, if_neg h]; simpa using h

/-- Soft-retiring a row does not change its build-completion status. -/
theorem retireFix_preserves_build (now : ℚ) (p : PlacedObject) :
    buildCompleted now (retireFix now p) = buildCompleted now p := by
  by_cases h : retiringNow now p = true
  · rw [retireFix, if_pos h]; rfl
  · rw [retireFix, if_neg h]

/-- After soft retirement, a row no longer satisfies the
`retiring_objects` filter. -/
theorem retireFix_clears (now : ℚ) (p : PlacedObject) :
    retiringNow now (retireFix now p) = false := by
  by_cases h : retiringNow now p = true
  · rw [retireFix, if_pos h]; rfl
  · rw [retireFix, if_neg h]; simpa using h

/-- The keystone side effects never touch the placement table. -/
theorem processKeystone_placed (catalog : List GameObject) (s : PlayerState)
    (p : PlacedObject) : (processKeystone catalog s p).placed = s.placed := by
  unfold processKeystone
  split
  · split
    · split
      · rfl
      · rfl
    · rfl
  · rfl

theorem foldl_processKeystone_placed (catalog : List GameObject)
    (l : List PlacedObject) (s : PlayerState) :
    (l.foldl (processKeystone catalog) s).placed = s.placed := by
  induction l generalizing s with
  | nil => rfl
  | cons a t ih => rw [List.foldl_cons, ih, processKeystone_placed]

theorem update_player_coins_placed (catalog : List GameObject) (now : ℚ)
    (s : PlayerState) :
    (update_player_coins catalog now s).placed
      = (s.placed.map (buildFix now)).map (retireFix now) := by
  simp [update_player_coins, accrualPhase, retirePhase, buildPhase,
        foldl_processKeystone_placed]

theorem update_player_coins_last (catalog : List GameObject) (now : ℚ)
    (s : PlayerState) :
    (update_player_coins catalog now s).last_coin_update = now := rfl

/-- C1. The Economy Reconciler is idempotent for a fixed `now`: a second
`update_player_coins` call with the same `now` leaves the whole player
state (coins, time crystals, placement flags, era unlocks, current era,
discoveries and the last-reconciled timestamp) unchanged. -/
theorem claim_C1_reconciler_idempotent (catalog : List GameObject) (now : ℚ)
    (s : PlayerState) :
    update_player_coins catalog now (update_player_coins catalog now s)
      = update_player_coins catalog now s := by
  set s1 := update_player_coins catalog now s with hs1
  have hpl : ∀ p ∈ s1.placed,
      buildCompleted now p = false ∧ retiringNow now p = false := by
    intro p hp
    rw [hs1, update_player_coins_placed] at hp
    simp only [List.mem_map] at hp
    obtain ⟨q, ⟨q0, _, rfl⟩, rfl⟩ := hp
    exact ⟨by rw [retireFix_preserves_build, buildFix_clears],
           retireFix_clears now _⟩
  have hbuild : buildPhase catalog now s1 = s1 := by
    have hfil : s1.placed.filter (buildCompleted now) = [] :=
      filter_eq_nil_of_forall _ _ fun p hp => (hpl p hp).1
    have hmap : s1.placed.map (buildFix now) = s1.placed :=
      map_eq_self_of_forall _ _ fun p hp => by simp [buildFix, (hpl p hp).1]
    simp only [buildPhase, hfil, List.foldl_nil, hmap]
  have hretire : retirePhase now s1 = s1 := by
    have hfil : s1.placed.filter (retiringNow now) = [] :=
      filter_eq_nil_of_forall _ _ fun p hp => (hpl p hp).2
    have hmap : s1.placed.map (retireFix now) = s1.placed :=
      map_eq_self_of_forall _ _ fun p hp => by simp [retireFix, (hpl p hp).2]
    simp only [retirePhase, hfil, List.foldl_nil, hmap]
  have haccr : accrualPhase now s1 = s1 := by
    have hlast : s1.last_coin_update = now := update_player_coins_last _ _ _
    simp only [accrualPhase, hlast, sub_self, mul_zero, add_zero]
    rw [← hlast]
  show accrualPhase now (retirePhase now (buildPhase catalog now s1)) = s1
  rw [hbuild, hretire, haccr]

theorem foldl_add_eq_add_sum {α : Type} (f : α → ℚ) (l : List α) (a : ℚ) :
    l.foldl (fun acc x => acc + f x) a = a + (l.map f).sum := by
  induction l generalizing a with
  | nil => simp
  | cons x t ih => simp [ih, add_assoc]

theorem filter_congr_of_forall {α : Type} (p q : α → Bool) (l : List α)
    (h : ∀ a ∈ l, p a = q a) : l.filter p = l.filter q := by
  induction l with
  | nil => rfl
  | cons a t ih =>
      simp only [List.filter_cons, h a (List.mem_cons_self a t)]
      rw [ih fun b hb => h b (List.mem_cons_of_mem a hb)]

/-- The accrual phase credits exactly
`Σ income_per_second × multiplier(category)` times the elapsed interval. -/
theorem accrual_coins_eq (now : ℚ) (s : PlayerState) :
    (accrualPhase now s).coins = s.coins +
      ((s.placed.filter (operationalAt now)).map (fun p =>
        p.game_object.income_per_second *
          incomeMultiplier (s.placed.filter (operationalAt now))
            p.game_object.category)).sum
        * (now - s.last_coin_update) := by
  simp only [accrualPhase, foldl_add_eq_add_sum, zero_add]

/-- The accrual phase credits exactly `Σ time_crystal_generation` times the
elapsed interval — generation is not modifier-scaled. -/
theorem accrual_crystals_eq (now : ℚ) (s : PlayerState) :
    (accrualPhase now s).time_crystals = s.time_crystals +
      ((s.placed.filter (operationalAt now)).map (fun p =>
        p.game_object.time_crystal_generation)).sum
        * (now - s.last_coin_update) := by
  simp only [accrualPhase, foldl_add_eq_add_sum, zero_add]

/-! ## Concrete fixtures -/

/-- A neutral `GameObject` used as a template for concrete test rows. -/
def baseObject : GameObject :=
  { id := 0, object_name := "Obj", era_name := "Hunter-Gatherer",
    is_keystone := false, is_starter := false, category := "misc",
    cost := 0, time_crystal_cost := 0, income_per_second := 0,
    time_crystal_generation := 0, build_time_sec := 0,
    operation_duration_sec := 60, retire_payout_coins_pct := 0,
    sellback_pct := 0, cap_per_civ := none, footprint_w := 1,
    footprint_h := 1, global_modifiers := [] }

/-- An operational placement of `g`, never retiring. -/
def operationalRow (i : Nat) (g : GameObject) : PlacedObject :=
  { id := i, game_object := g, x := 0, y := 0, placed_at := 0,
    build_complete_at := 0, retire_at := none,
    is_operational := true, is_building := false }

/-- The ×2 multiplicative farm modifier from the spec scenario. -/
def farmModifier : Modifier :=
  { active_when := "operational", affected_categories := ["farm"],
    income_multiplier := 2, stacking := "multiplicative" }

def farmSource : GameObject :=
  { baseObject with id := 1, object_name := "Farm A", category := "farm",
                    income_per_second := 1,
                    global_modifiers := [farmModifier] }

def farmPlain : GameObject :=
  { baseObject with id := 2, object_name := "Farm B", category := "farm",
                    income_per_second := 1 }

/-- Two operational category-"farm" objects, one carrying the ×2 farm
modifier, both with `income_per_second = 1`, last reconciled at t = 0. -/
def farmState : PlayerState :=
  { coins := 0, time_crystals := 0, current_era := "Hunter-Gatherer",
    last_coin_update := 0,
    placed := [operationalRow 11 farmSource, operationalRow 12 farmPlain],
    era_unlocks := ["Hunter-Gatherer"],
    discoveries := ["Farm A", "Farm B"] }

/-- C2. Accrual: coin income is `Σ income_per_second × multiplier(category)`
over the operational-at-`now` instances, where the multiplier is the fold of
all active modifiers for the category (source included), while crystal
accrual is `Σ time_crystal_generation` with no multiplier; concretely, the
two-farm scenario with one ×2 multiplicative farm modifier accrues exactly
4 coins over Δt = 1s (self-application included). -/
theorem claim_C2_accrual_formula :
    (∀ (now : ℚ) (s : PlayerState),
      (accrualPhase now s).coins = s.coins +
        ((s.placed.filter (operationalAt now)).map (fun p =>
          p.game_object.income_per_second *
            incomeMultiplier (s.placed.filter (operationalAt now))
              p.game_object.category)).sum
          * (now - s.last_coin_update)
      ∧ (accrualPhase now s).time_crystals = s.time_crystals +
        ((s.placed.filter (operationalAt now)).map (fun p =>
          p.game_object.time_crystal_generation)).sum
          * (now - s.last_coin_update))
    ∧ (update_player_coins [] 1 farmState).coins = 4 := by
  refine ⟨fun now s => ⟨accrual_coins_eq now s, accrual_crystals_eq now s⟩, ?_⟩
  norm_num [update_player_coins, buildPhase, retirePhase, accrualPhase,
    processKeystone, buildCompleted, completeBuild, buildFix, retiringNow,
    retireFix, operationalAt, modsFor, incomeMultiplier, insertNew,
    grantStarters, farmState, farmSource, farmPlain, farmModifier,
    baseObject, operationalRow]

/-- An operational object generating both coins and crystals. -/
def wellObject : GameObject :=
  { baseObject with id := 3, object_name := "Well", income_per_second := 1,
                    time_crystal_generation := 1 }

/-- A player whose stored `last_coin_update` (t = 10) lies in the future of
the `now` (t = 5) the reconciler will be called with. -/
def backwardState : PlayerState :=
  { coins := 100, time_crystals := 100, current_era := "Hunter-Gatherer",
    last_coin_update := 10, placed := [operationalRow 13 wellObject],
    era_unlocks := ["Hunter-Gatherer"], discoveries := ["Well"] }

/-- C3, counterexample. `Δt = now - last_coin_update` is *not* clamped to
≥ 0: reconciling at `now = 5` a player last reconciled at `t = 10` with one
operational object decreases both the coin and the crystal balance. -/
theorem claim_C3_counterexample :
    (update_player_coins [] 5 backwardState).coins < backwardState.coins ∧
    (update_player_coins [] 5 backwardState).time_crystals
      < backwardState.time_crystals := by
  norm_num [update_player_coins, buildPhase, retirePhase, accrualPhase,
    processKeystone, buildCompleted, completeBuild, buildFix, retiringNow,
    retireFix, operationalAt, modsFor, incomeMultiplier, insertNew,
    grantStarters, backwardState, wellObject, baseObject, operationalRow]

theorem operationalAt_of_none (now : ℚ) (p : PlacedObject)
    (h : p.retire_at = none) : operationalAt now p = p.is_operational := by
  simp [operationalAt, h]

/-- C3, amended. The elapsed interval is not clamped; provided
`last_coin_update ≤ now`, the per-object rates are nonnegative, no
placement carries a finite `retire_at` (a fixed operational set), and every
effective category multiplier is nonnegative, the accrual phase never
decreases either balance and both balances are non-decreasing in `now`. -/
theorem claim_C3_amended (s : PlayerState) (now1 now2 : ℚ)
    (h0 : s.last_coin_update ≤ now1) (h12 : now1 ≤ now2)
    (hrate : ∀ p ∈ s.placed, 0 ≤ p.game_object.income_per_second ∧
      0 ≤ p.game_object.time_crystal_generation)
    (hret : ∀ p ∈ s.placed, p.retire_at = none)
    (hmult : ∀ p ∈ s.placed,
      0 ≤ incomeMultiplier (s.placed.filter (operationalAt now1))
            p.game_object.category) :
    (s.coins ≤ (accrualPhase now1 s).coins
      ∧ (accrualPhase now1 s).coins ≤ (accrualPhase now2 s).coins)
    ∧ (s.time_crystals ≤ (accrualPhase now1 s).time_crystals
      ∧ (accrualPhase now1 s).time_crystals
          ≤ (accrualPhase now2 s).time_crystals) := by
  have hops : s.placed.filter (operationalAt now2)
      = s.placed.filter (operationalAt now1) :=
    filter_congr_of_forall _ _ _ fun p hp => by
      rw [operationalAt_of_none _ _ (hret p hp),
          operationalAt_of_none _ _ (hret p hp)]
  have hT : 0 ≤ ((s.placed.filter (operationalAt now1)).map (fun p =>
      p.game_object.income_per_second *
        incomeMultiplier (s.placed.filter (operationalAt now1))
          p.game_object.category)).sum := by
    apply List.sum_nonneg
    intro x hx
    obtain ⟨p, hp, rfl⟩ := List.mem_map.mp hx
    exact mul_nonneg (hrate p (List.mem_of_mem_filter hp)).1
      (hmult p (List.mem_of_mem_filter hp))
  have hTc : 0 ≤ ((s.placed.filter (operationalAt now1)).map (fun p =>
      p.game_object.time_crystal_generation)).sum := by
    apply List.sum_nonneg
    intro x hx
    obtain ⟨p, hp, rfl⟩ := List.mem_map.mp hx
    exact (hrate p (List.mem_of_mem_filter hp)).2
  constructor
  · constructor
    · rw [accrual_coins_eq]
      exact le_add_of_nonneg_right (mul_nonneg hT (by linarith))
    · rw [accrual_coins_eq, accrual_coins_eq, hops]
      exact add_le_add_left (mul_le_mul_of_nonneg_left (by linarith) hT) _
  · constructor
    · rw [accrual_crystals_eq]
      exact le_add_of_nonneg_right (mul_nonneg hTc (by linarith))
    · rw [accrual_crystals_eq, accrual_crystals_eq, hops]
      exact add_le_add_left (mul_le_mul_of_nonneg_left (by linarith) hTc) _

/-- Witness for C3 (amended) at the two-farm fixture, `now1 = 1`,
`now2 = 2`. -/
theorem claim_C3_amended_witness :
    farmState.last_coin_update ≤ (1 : ℚ) ∧
    (farmState.coins ≤ (accrualPhase 1 farmState).coins
      ∧ (accrualPhase 1 farmState).coins ≤ (accrualPhase 2 farmState).coins)
    ∧ (farmState.time_crystals ≤ (accrualPhase 1 farmState).time_crystals
      ∧ (accrualPhase 1 farmState).time_crystals
          ≤ (accrualPhase 2 farmState).time_crystals) := by
  refine ⟨by norm_num [farmState], ?_⟩
  exact claim_C3_amended farmState 1 2 (by norm_num [farmState]) (by norm_num)
    (by norm_num [farmState, operationalRow, farmSource, farmPlain,
          baseObject, farmModifier])
    (by norm_num [farmState, operationalRow, farmSource, farmPlain,
          baseObject, farmModifier])
    (by norm_num [farmState, operationalRow, farmSource, farmPlain,
          baseObject, farmModifier, incomeMultiplier, modsFor, operationalAt])

theorem update_player_coins_unlocks (catalog : List GameObject) (now : ℚ)
    (s : PlayerState) :
    (update_player_coins catalog now s).era_unlocks
      = ((s.placed.filter (buildCompleted now)).foldl
          (processKeystone catalog) s).era_unlocks := rfl

theorem update_player_coins_era (catalog : List GameObject) (now : ℚ)
    (s : PlayerState) :
    (update_player_coins catalog now s).current_era
      = ((s.placed.filter (buildCompleted now)).foldl
          (processKeystone catalog) s).current_era := rfl

theorem update_player_coins_discoveries (catalog : List GameObject) (now : ℚ)
    (s : PlayerState) :
    (update_player_coins catalog now s).discoveries
      = ((s.placed.filter (buildCompleted now)).foldl
          (processKeystone catalog) s).discoveries := rfl

theorem mem_insertNew (x y : String) (l : List String) :
    x ∈ insertNew y l ↔ x ∈ l ∨ x = y := by
  unfold insertNew
  by_cases h : y ∈ l
  · rw [if_pos h]
    constructor
    · exact Or.inl
    · rintro (hx | rfl)
      · exact hx
      · exact h
  · rw [if_neg h]
    simp [List.mem_append]

theorem mem_foldl_insertNew (l : List GameObject) (ds : List String)
    (x : String) :
    x ∈ l.foldl (fun acc o => insertNew o.object_name acc) ds ↔
      x ∈ ds ∨ ∃ o ∈ l, o.object_name = x := by
  induction l generalizing ds with
  | nil => simp
  | cons a t ih =>
      rw [List.foldl_cons, ih, mem_insertNew]
      constructor
      · rintro ((hx | rfl) | ⟨o, ho, rfl⟩)
        · exact Or.inl hx
        · exact Or.inr ⟨a, by simp⟩
        · exact Or.inr ⟨o, by simp [ho]⟩
      · rintro (hx | ⟨o, ho, rfl⟩)
        · exact Or.inl (Or.inl hx)
        · rcases List.mem_cons.mp ho with rfl | ho
          · exact Or.inl (Or.inr rfl)
          · exact Or.inr ⟨o, ho, rfl⟩

theorem mem_grantStarters (catalog : List GameObject) (era : String)
    (ds : List String) (x : String) :
    x ∈ grantStarters catalog era ds ↔
      x ∈ ds ∨ ∃ o ∈ catalog,
        o.is_starter = true ∧ o.era_name = era ∧ o.object_name = x := by
  rw [grantStarters, mem_foldl_insertNew]
  constructor
  · rintro (hx | ⟨o, ho, rfl⟩)
    · exact Or.inl hx
    · obtain ⟨hmem, hp⟩ := List.mem_filter.mp ho
      simp only [Bool.and_eq_true, beq_iff_eq] at hp
      exact Or.inr ⟨o, hmem, hp.1, hp.2, rfl⟩
  · rintro (hx | ⟨o, ho, h1, h2, rfl⟩)
    · exact Or.inl hx
    · exact Or.inr ⟨o, List.mem_filter.mpr ⟨ho, by simp [h1, h2]⟩, rfl⟩

/-! ### C4 fixtures -/

/-- A keystone object declared in the Hunter-Gatherer era. -/
def keystoneObject : GameObject :=
  { baseObject with id := 4, object_name := "Campfire", is_keystone := true }

/-- A starter object of the Agriculture era. -/
def agStarter : GameObject :=
  { baseObject with id := 5, object_name := "Wheat",
                    era_name := "Agriculture", is_starter := true }

/-- A placement still under construction, completing at `done`. -/
def buildingRow (i : Nat) (g : GameObject) (done : ℚ) : PlacedObject :=
  { id := i, game_object := g, x := 0, y := 0, placed_at := 0,
    build_complete_at := done, retire_at := some 1000,
    is_operational := false, is_building := true }

/-- A player whose Hunter-Gatherer keystone finishes building at t = 0,
with the keystone's own era already unlocked. -/
def keystoneState : PlayerState :=
  { coins := 0, time_crystals := 0, current_era := "Hunter-Gatherer",
    last_coin_update := 0,
    placed := [buildingRow 14 keystoneObject 0],
    era_unlocks := ["Hunter-Gatherer"], discoveries := [] }

/-- C4, counterexample. The claim says the completed keystone unlocks the
keystone's *own* declared era (here Hunter-Gatherer, already unlocked, so
nothing would change); the code unlocks `get_next_era` of it instead: the
reconciler adds an `EraUnlock` for Agriculture, moves `current_era` there,
and grants the Agriculture starters. -/
theorem claim_C4_counterexample :
    (update_player_coins [agStarter] 0 keystoneState).era_unlocks
        = ["Hunter-Gatherer", "Agriculture"]
    ∧ (update_player_coins [agStarter] 0 keystoneState).current_era
        = "Agriculture"
    ∧ (update_player_coins [agStarter] 0 keystoneState).discoveries
        = ["Wheat"] := by
  refine ⟨?_, ?_, ?_⟩ <;> decide

/-- C4, amended. Every building whose `build_complete_at ≤ now` becomes
operational in the build-completion phase; starter grants are exactly a
set-union with the era's `is_starter` objects (already-held discoveries
untouched); and for a single completing keystone the era unlocked is the
*next* era after the keystone's declared era — an `EraUnlock` is created,
`current_era` moved and starters granted only when that next era exists and
is not already unlocked. -/
theorem claim_C4_keystone_next_era (catalog : List GameObject) (now : ℚ)
    (s : PlayerState) :
    (∀ q ∈ s.placed, q.is_building = true → q.build_complete_at ≤ now →
        completeBuild q ∈ (buildPhase catalog now s).placed)
    ∧ (∀ (era x : String) (ds : List String),
        x ∈ grantStarters catalog era ds ↔
          x ∈ ds ∨ ∃ o ∈ catalog,
            o.is_starter = true ∧ o.era_name = era ∧ o.object_name = x)
    ∧ (∀ (p : PlacedObject) (e : String),
        s.placed.filter (buildCompleted now) = [p] →
        p.game_object.is_keystone = true →
        get_next_era p.game_object.era_name = some e →
        ((e ∉ s.era_unlocks →
            (update_player_coins catalog now s).era_unlocks
              = s.era_unlocks ++ [e]
            ∧ (update_player_coins catalog now s).current_era = e
            ∧ (update_player_coins catalog now s).discoveries
                = grantStarters catalog e s.discoveries)
         ∧ (e ∈ s.era_unlocks →
            (update_player_coins catalog now s).era_unlocks = s.era_unlocks
            ∧ (update_player_coins catalog now s).current_era = s.current_era
            ∧ (update_player_coins catalog now s).discoveries
                = s.discoveries))) := by
  refine ⟨?_, fun era x ds => mem_grantStarters catalog era ds x, ?_⟩
  · intro q hq hb hle
    have hdone : buildCompleted now q = true := by
      simp [buildCompleted, hb, hle]
    have hplaced : (buildPhase catalog now s).placed
        = s.placed.map (buildFix now) := by
      simp [buildPhase, foldl_processKeystone_placed]
    rw [hplaced]
    have : buildFix now q = completeBuild q := by rw [buildFix, if_pos hdone]
    exact this ▸ List.mem_map_of_mem (buildFix now) hq
  · intro p e hfil hk hne
    have hrw : ∀ t : PlayerState,
        (s.placed.filter (buildCompleted now)).foldl
          (processKeystone catalog) t = processKeystone catalog t p := by
      intro t
      rw [hfil, List.foldl_cons, List.foldl_nil]
    constructor
    · intro hmem
      rw [update_player_coins_unlocks, update_player_coins_era,
          update_player_coins_discoveries, hrw]
      unfold processKeystone
      simp only [hk, hne]
      rw [if_neg hmem]
      exact ⟨rfl, rfl, rfl⟩
    · intro hmem
      rw [update_player_coins_unlocks, update_player_coins_era,
          update_player_coins_discoveries, hrw]
      unfold processKeystone
      simp only [hk, hne]
      rw [if_pos hmem]
      exact ⟨rfl, rfl, rfl⟩

/-- Witness for C4 (amended) at the keystone fixture: the single completed
Hunter-Gatherer keystone unlocks Agriculture. -/
theorem claim_C4_keystone_next_era_witness :
    keystoneState.placed.filter (buildCompleted 0)
        = [buildingRow 14 keystoneObject 0]
    ∧ (update_player_coins [agStarter] 0 keystoneState).current_era
        = "Agriculture"
    ∧ (update_player_coins [agStarter] 0 keystoneState).era_unlocks
        = ["Hunter-Gatherer", "Agriculture"] := by
  have h := ((claim_C4_keystone_next_era [agStarter] 0 keystoneState).2.2
    (buildingRow 14 keystoneObject 0) "Agriculture" (by decide) (by decide)
    (by decide)).1 (by decide)
  refine ⟨by decide, h.2.1, ?_⟩
  rw [h.1]
  decide

/-! ## C5: retirement phase -/

/-- C5. Retirement: the phase credits exactly
`Σ cost × retire_payout_coins_pct` over the retiring instances, deletes
nothing (the placement count is preserved), and each retiring instance
stays in the table flagged `is_operational := false`. -/
theorem claim_C5_retirement (now : ℚ) (s : PlayerState) :
    (retirePhase now s).coins = s.coins +
      ((s.placed.filter (retiringNow now)).map (fun p =>
        p.game_object.cost * p.game_object.retire_payout_coins_pct)).sum
    ∧ (retirePhase now s).placed.length = s.placed.length
    ∧ (∀ p ∈ s.placed, retiringNow now p = true →
        { p with is_operational := false } ∈ (retirePhase now s).placed) := by
  refine ⟨?_, ?_, ?_⟩
  · simp only [retirePhase, foldl_add_eq_add_sum]
  · simp [retirePhase]
  · intro p hp hr
    have hfix : retireFix now p = { p with is_operational := false } := by
      rw [retireFix, if_pos hr]
    have hplaced : (retirePhase now s).placed
        = s.placed.map (retireFix now) := rfl
    rw [hplaced]
    exact hfix ▸ List.mem_map_of_mem (retireFix now) hp

/-- An object that pays back its full cost of 10 on retirement and also
sells back at 100%. -/
def retireeObject : GameObject :=
  { baseObject with id := 6, object_name := "Hut", cost := 10,
                    retire_payout_coins_pct := 1, sellback_pct := 1 }

def retiringRow : PlacedObject :=
  { id := 15, game_object := retireeObject, x := 0, y := 0, placed_at := 0,
    build_complete_at := 0, retire_at := some 5,
    is_operational := true, is_building := false }

def retireeState : PlayerState :=
  { coins := 0, time_crystals := 0, current_era := "Hunter-Gatherer",
    last_coin_update := 10, placed := [retiringRow],
    era_unlocks := ["Hunter-Gatherer"], discoveries := ["Hut"] }

/-- Witness for C5 at a concrete retiring placement (`retire_at = 5`,
`now = 10`): the soft-retired row is kept with `is_operational = false`. -/
theorem claim_C5_retirement_witness :
    retiringRow ∈ retireeState.placed ∧ retiringNow 10 retiringRow = true ∧
    { retiringRow with is_operational := false }
      ∈ (retirePhase 10 retireeState).placed := by
  exact ⟨by decide, by decide,
    (claim_C5_retirement 10 retireeState).2.2 retiringRow (by decide)
      (by decide)⟩

/-! ## Placement Validator (`views.place_object`) -/

inductive PlaceResult where
  | forbidden
  | insufficientCoins
  | insufficientCrystals
  | capReached
  | spaceOccupied
  | outOfBounds
  | ok (placed : PlacedObject)
deriving DecidableEq

def PlaceResult.isOk : PlaceResult → Bool
  | .ok _ => true
  | _ => false

/-- `PlacedObject.objects.filter(player=profile, game_object=game_object).count()`. -/
def countPlacements (s : PlayerState) (g : GameObject) : Nat :=
  (s.placed.filter (fun p => p.game_object.id == g.id)).length

/-- The cap test `if game_object.cap_per_civ:` / `if count >= cap:` —
Python truthiness skips the check when the cap is `None` *or* `0`. -/
def capBlocked (s : PlayerState) (g : GameObject) : Bool :=
  match g.cap_per_civ with
  | some c => (c != 0) && decide (c ≤ (countPlacements s g : Int))
  | none => false

/-- The per-placement overlap test from `views.py:989-995`. -/
def overlapsWith (x y w h : Int) (p : PlacedObject) : Bool :=
  decide (x < p.x + p.game_object.footprint_w) && decide (p.x < x + w) &&
  decide (y < p.y + p.game_object.footprint_h) && decide (p.y < y + h)

/-- The row created on successful placement (`views.py:1007-1021`). -/
def placeRow (g : GameObject) (x y : Int) (now : ℚ) (newId : Nat) :
    PlacedObject :=
  { id := newId, game_object := g, x := x, y := y, placed_at := now,
    build_complete_at := now + (g.build_time_sec : ℚ),
    retire_at := some (now + (g.build_time_sec : ℚ)
                        + (g.operation_duration_sec : ℚ)),
    is_operational := decide (g.build_time_sec = 0),
    is_building := decide (g.build_time_sec > 0) }

/-- The checks and success path of `views.place_object` (lines 966-1024),
after the reconciliation the endpoint performs first; `isAdmin` models
`is_admin_user(request.user)` and `newId` the fresh database id. -/
def place_object_checks (s : PlayerState) (g : GameObject) (x y : Int)
    (now : ℚ) (isAdmin : Bool) (newId : Nat) : PlaceResult × PlayerState :=
  if g.object_name ∉ s.discoveries then (.forbidden, s)
  else if s.coins < g.cost ∧ isAdmin = false then (.insufficientCoins, s)
  else if s.time_crystals < g.time_crystal_cost then (.insufficientCrystals, s)
  else if capBlocked s g then (.capReached, s)
  else if s.placed.any (overlapsWith x y g.footprint_w g.footprint_h) then
    (.spaceOccupied, s)
  else if x < 0 ∨ y < 0 ∨ x + g.footprint_w > 1000
      ∨ y + g.footprint_h > 1000 then (.outOfBounds, s)
  else
    (.ok (placeRow g x y now newId),
     { s with coins := s.coins - g.cost,
              time_crystals := s.time_crystals - g.time_crystal_cost,
              placed := s.placed ++ [placeRow g x y now newId] })

/-- `views.place_object`: the endpoint reconciles the player first, then
runs the checks. -/
def place_object (catalog : List GameObject) (s : PlayerState)
    (g : GameObject) (x y : Int) (now : ℚ) (isAdmin : Bool) (newId : Nat) :
    PlaceResult × PlayerState :=
  place_object_checks (update_player_coins catalog now s) g x y now isAdmin
    newId

/-- An object whose `cap_per_civ` is set to `0`. -/
def cappedObject : GameObject :=
  { baseObject with id := 7, object_name := "Tent", cap_per_civ := some 0 }

def placerState : PlayerState :=
  { coins := 100, time_crystals := 0, current_era := "Hunter-Gatherer",
    last_coin_update := 0, placed := [], era_unlocks := ["Hunter-Gatherer"],
    discoveries := ["Tent"] }

/-- C6, counterexample. `cap_per_civ` is set (`some 0`) and the player's
placement count (0) is `≥` the cap, so the claim requires `CapReached`;
but the code's truthiness test `if game_object.cap_per_civ:` skips the
check for a cap of 0 and the placement succeeds. -/
theorem claim_C6_counterexample :
    cappedObject.cap_per_civ = some 0
    ∧ countPlacements placerState cappedObject = 0
    ∧ (place_object_checks placerState cappedObject 0 0 0 false 21).1.isOk
        = true := by
  refine ⟨rfl, rfl, ?_⟩
  decide

/-- C6, amended. The placement checks run in order with first failure
winning — Forbidden, InsufficientFunds (coins, waived for fee-exempt
players, then crystals), CapReached (only when `cap_per_civ` is set *and
nonzero*), SpaceOccupied on half-open rectangle intersection, OutOfBounds
against `[0,1000)²` — and on success both currencies are debited and the
instance is created with `build_complete_at = now + build_time_sec`,
`retire_at = build_complete_at + operation_duration_sec`,
`building = (build_time_sec > 0)` and `operational = ¬building`. -/
theorem claim_C6_place_order (s : PlayerState) (g : GameObject) (x y : Int)
    (now : ℚ) (adm : Bool) (nid : Nat) :
    (g.object_name ∉ s.discoveries →
      place_object_checks s g x y now adm nid = (.forbidden, s))
    ∧ (g.object_name ∈ s.discoveries → adm = false → s.coins < g.cost →
      place_object_checks s g x y now adm nid = (.insufficientCoins, s))
    ∧ (g.object_name ∈ s.discoveries → (adm = true ∨ g.cost ≤ s.coins) →
        s.time_crystals < g.time_crystal_cost →
      place_object_checks s g x y now adm nid = (.insufficientCrystals, s))
    ∧ (∀ c : Int, g.object_name ∈ s.discoveries →
        (adm = true ∨ g.cost ≤ s.coins) →
        g.time_crystal_cost ≤ s.time_crystals →
        g.cap_per_civ = some c → c ≠ 0 →
        c ≤ (countPlacements s g : Int) →
      place_object_checks s g x y now adm nid = (.capReached, s))
    ∧ (g.object_name ∈ s.discoveries → (adm = true ∨ g.cost ≤ s.coins) →
        g.time_crystal_cost ≤ s.time_crystals → capBlocked s g = false →
        (∃ p ∈ s.placed, ∃ i j : Int,
          x ≤ i ∧ i < x + g.footprint_w ∧
          p.x ≤ i ∧ i < p.x + p.game_object.footprint_w ∧
          y ≤ j ∧ j < y + g.footprint_h ∧
          p.y ≤ j ∧ j < p.y + p.game_object.footprint_h) →
      place_object_checks s g x y now adm nid = (.spaceOccupied, s))
    ∧ (g.object_name ∈ s.discoveries → (adm = true ∨ g.cost ≤ s.coins) →
        g.time_crystal_cost ≤ s.time_crystals → capBlocked s g = false →
        s.placed.any (overlapsWith x y g.footprint_w g.footprint_h) = false →
        (x < 0 ∨ y < 0 ∨ x + g.footprint_w > 1000
          ∨ y + g.footprint_h > 1000) →
      place_object_checks s g x y now adm nid = (.outOfBounds, s))
    ∧ (g.object_name ∈ s.discoveries → (adm = true ∨ g.cost ≤ s.coins) →
        g.time_crystal_cost ≤ s.time_crystals → capBlocked s g = false →
        s.placed.any (overlapsWith x y g.footprint_w g.footprint_h) = false →
        0 ≤ x → 0 ≤ y → x + g.footprint_w ≤ 1000 →
        y + g.footprint_h ≤ 1000 →
      place_object_checks s g x y now adm nid =
        (.ok (placeRow g x y now nid),
         { s with coins := s.coins - g.cost,
                  time_crystals := s.time_crystals - g.time_crystal_cost,
                  placed := s.placed ++ [placeRow g x y now nid] }))
    ∧ (∀ p : PlacedObject, 0 < g.footprint_w → 0 < g.footprint_h →
        0 < p.game_object.footprint_w → 0 < p.game_object.footprint_h →
        (overlapsWith x y g.footprint_w g.footprint_h p = true ↔
          ∃ i j : Int,
            x ≤ i ∧ i < x + g.footprint_w ∧
            p.x ≤ i ∧ i < p.x + p.game_object.footprint_w ∧
            y ≤ j ∧ j < y + g.footprint_h ∧
            p.y ≤ j ∧ j < p.y + p.game_object.footprint_h))
    ∧ (0 ≤ g.build_time_sec →
        (placeRow g x y now nid).build_complete_at
            = now + (g.build_time_sec : ℚ)
        ∧ (placeRow g x y now nid).retire_at
            = some ((placeRow g x y now nid).build_complete_at
                    + (g.operation_duration_sec : ℚ))
        ∧ (placeRow g x y now nid).is_building
            = decide (0 < g.build_time_sec)
        ∧ (placeRow g x y now nid).is_operational
            = !(placeRow g x y now nid).is_building) := by
  refine ⟨?_, ?_, ?_, ?_, ?_, ?_, ?_, ?_, ?_⟩
  · intro h
    simp only [place_object_checks]
    rw [if_pos h]
  · intro hmem hadm hlt
    simp only [place_object_checks]
    rw [if_neg (not_not_intro hmem), if_pos ⟨hlt, hadm⟩]
  · intro hmem hfund hlt
    have h2 : ¬(s.coins < g.cost ∧ adm = false) := by
      rintro ⟨h1, hf⟩
      rcases hfund with h | h
      · rw [h] at hf
        exact Bool.noConfusion hf
      · exact absurd h1 (not_lt.mpr h)
    simp only [place_object_checks]
    rw [if_neg (not_not_intro hmem), if_neg h2, if_pos hlt]
  · intro c hmem hfund hc hcap hne hcle
    have h2 : ¬(s.coins < g.cost ∧ adm = false) := by
      rintro ⟨h1, hf⟩
      rcases hfund with h | h
      · rw [h] at hf
        exact Bool.noConfusion hf
      · exact absurd h1 (not_lt.mpr h)
    have h3 : ¬(s.time_crystals < g.time_crystal_cost) := not_lt.mpr hc
    have h4 : capBlocked s g = true := by
      simp only [capBlocked, hcap]
      simp [hne, hcle]
    simp only [place_object_checks]
    rw [if_neg (not_not_intro hmem), if_neg h2, if_neg h3, if_pos h4]
  · intro hmem hfund hc hcapf hov
    have h2 : ¬(s.coins < g.cost ∧ adm = false) := by
      rintro ⟨h1, hf⟩
      rcases hfund with h | h
      · rw [h] at hf
        exact Bool.noConfusion hf
      · exact absurd h1 (not_lt.mpr h)
    have h3 : ¬(s.time_crystals < g.time_crystal_cost) := not_lt.mpr hc
    have h4f : ¬(capBlocked s g = true) := by simp [hcapf]
    have h5 : s.placed.any (overlapsWith x y g.footprint_w g.footprint_h)
        = true := by
      rw [List.any_eq_true]
      obtain ⟨p, hp, i, j, h⟩ := hov
      refine ⟨p, hp, ?_⟩
      simp only [overlapsWith, Bool.and_eq_true, decide_eq_true_eq]
      omega
    simp only [place_object_checks]
    rw [if_neg (not_not_intro hmem), if_neg h2, if_neg h3, if_neg h4f,
        if_pos h5]
  · intro hmem hfund hc hcapf hovf hb
    have h2 : ¬(s.coins < g.cost ∧ adm = false) := by
      rintro ⟨h1, hf⟩
      rcases hfund with h | h
      · rw [h] at hf
        exact Bool.noConfusion hf
      · exact absurd h1 (not_lt.mpr h)
    have h3 : ¬(s.time_crystals < g.time_crystal_cost) := not_lt.mpr hc
    have h4f : ¬(capBlocked s g = true) := by simp [hcapf]
    have h5f : ¬(s.placed.any (overlapsWith x y g.footprint_w g.footprint_h)
        = true) := by simp [hovf]
    simp only [place_object_checks]
    rw [if_neg (not_not_intro hmem), if_neg h2, if_neg h3, if_neg h4f,
        if_neg h5f, if_pos hb]
  · intro hmem hfund hc hcapf hovf hx hy hxw hyh
    have h2 : ¬(s.coins < g.cost ∧ adm = false) := by
      rintro ⟨h1, hf⟩
      rcases hfund with h | h
      · rw [h] at hf
        exact Bool.noConfusion hf
      · exact absurd h1 (not_lt.mpr h)
    have h3 : ¬(s.time_crystals < g.time_crystal_cost) := not_lt.mpr hc
    have h4f : ¬(capBlocked s g = true) := by simp [hcapf]
    have h5f : ¬(s.placed.any (overlapsWith x y g.footprint_w g.footprint_h)
        = true) := by simp [hovf]
    have h6f : ¬(x < 0 ∨ y < 0 ∨ x + g.footprint_w > 1000
        ∨ y + g.footprint_h > 1000) := by omega
    simp only [place_object_checks]
    rw [if_neg (not_not_intro hmem), if_neg h2, if_neg h3, if_neg h4f,
        if_neg h5f, if_neg h6f]
  · intro p hw hh hpw hph
    constructor
    · intro h
      simp only [overlapsWith, Bool.and_eq_true, decide_eq_true_eq] at h
      refine ⟨max x p.x, max y p.y, ?_, ?_, ?_, ?_, ?_, ?_, ?_, ?_⟩ <;> omega
    · rintro ⟨i, j, h1, h2, h3, h4, h5, h6, h7, h8⟩
      simp only [overlapsWith, Bool.and_eq_true, decide_eq_true_eq]
      omega
  · intro hbt
    refine ⟨rfl, rfl, rfl, ?_⟩
    show decide (g.build_time_sec = 0) = !decide (g.build_time_sec > 0)
    by_cases h0 : g.build_time_sec = 0
    · simp [h0]
    · have hpos : 0 < g.build_time_sec := lt_of_le_of_ne hbt (Ne.symm h0)
      simp [h0, hpos]

/-- A 2×2 object used for the spec's overlap scenario. -/
def blockObject : GameObject :=
  { baseObject with id := 8, object_name := "Block", footprint_w := 2,
                    footprint_h := 2 }

def blockRow : PlacedObject :=
  { id := 16, game_object := blockObject, x := 0, y := 0, placed_at := 0,
    build_complete_at := 0, retire_at := none,
    is_operational := true, is_building := false }

def gridState : PlayerState :=
  { coins := 100, time_crystals := 0, current_era := "Hunter-Gatherer",
    last_coin_update := 0, placed := [blockRow],
    era_unlocks := ["Hunter-Gatherer"], discoveries := ["Block"] }

/-- Witness for C6 (amended): against an existing `[0,2)²` placement,
placing the 2×2 object at `(1,1)` fails with SpaceOccupied while placing it
at `(2,2)` (edge-adjacent) succeeds. -/
theorem claim_C6_place_order_witness :
    (place_object_checks gridState blockObject 1 1 0 false 22).1
        = PlaceResult.spaceOccupied
    ∧ (place_object_checks gridState blockObject 2 2 0 false 23).1
        = PlaceResult.ok (placeRow blockObject 2 2 0 23) := by
  constructor
  · have h5 := (claim_C6_place_order gridState blockObject 1 1 0 false
      22).2.2.2.2.1 (by decide) (Or.inr (by decide)) (by decide) (by decide)
      ⟨blockRow, by decide, 1, 1, by decide, by decide, by decide, by decide,
       by decide, by decide, by decide, by decide⟩
    rw [h5]
  · have h7 := (claim_C6_place_order gridState blockObject 2 2 0 false
      23).2.2.2.2.2.2.1 (by decide) (Or.inr (by decide)) (by decide)
      (by decide) (by decide) (by decide) (by decide) (by decide) (by decide)
    rw [h7]

/-! ## Crafting Orchestrator (`views.craft_objects`) -/

/-- `models.CraftingRecipe`, canonicalized (`a_id ≤ b_id` at creation);
the result object is referenced by its unique name. -/
structure Recipe where
  a_id : Nat
  b_id : Nat
  result_name : String
deriving DecidableEq

/-- The store slice `craft_objects` touches: the player, the global
`GameObject` and `CraftingRecipe` tables, and the four rate-limit counters
(`user_discovery`/`global_api` per-minute, user/global daily). -/
structure World where
  player : PlayerState
  objects : List GameObject
  recipes : List Recipe
  rl_user_minute : Nat
  rl_global_minute : Nat
  rl_user_daily : Nat
  rl_global_daily : Nat
deriving DecidableEq

inductive CraftErr where
  | rateLimitedDaily
  | rateLimitedGlobalDaily
  | rateLimitedGlobal
  | forbiddenA
  | forbiddenB
  | eraMismatch
  | insufficientCoins
  | upstreamFailed
  | imageFailed
deriving DecidableEq

/-- The success payload `(object, newly_discovered, newly_created, cost)`. -/
structure CraftOk where
  result_name : String
  newly_discovered : Bool
  newly_created : Bool
  crafting_cost : ℚ
deriving DecidableEq

/-- `CraftingRecipe.objects.get_or_create` keyed by the input pair. -/
def insertRecipe (r : Recipe) (l : List Recipe) : List Recipe :=
  if l.any (fun q => q.a_id == r.a_id && q.b_id == r.b_id) then l
  else l ++ [r]

/-- The generation path of `craft_objects` (`views.py:805-949`): commit the
four rate-limit increments, call the generator (`gen`, `none` modelling
`UpstreamGenerationFailed`/`MalformedUpstreamResponse`), handle a
name collision with an existing object, otherwise count and run the image
call (`imgOk`) and atomically persist object + recipe + discovery + debit. -/
def craftGenerate (w : World) (a b : GameObject) (cost : ℚ)
    (gen : Option GameObject) (imgOk : Bool) :
    Except CraftErr CraftOk × World :=
  let w1 : World := { w with rl_user_minute := w.rl_user_minute + 1,
                             rl_global_minute := w.rl_global_minute + 1,
                             rl_user_daily := w.rl_user_daily + 1,
                             rl_global_daily := w.rl_global_daily + 1 }
  match gen with
  | none => (.error .upstreamFailed, w1)
  | some gobj =>
    match w1.objects.find? (fun o => o.object_name == gobj.object_name) with
    | some existing =>
      if existing.object_name ∈ w1.player.discoveries then
        (.ok ⟨existing.object_name, false, false, cost⟩,
         { w1 with
             player := { w1.player with coins := w1.player.coins - cost },
             recipes := insertRecipe ⟨a.id, b.id, existing.object_name⟩
                          w1.recipes })
      else
        (.ok ⟨existing.object_name, true, false, cost⟩,
         { w1 with
             recipes := w1.recipes ++ [⟨a.id, b.id, existing.object_name⟩],
             player := { w1.player with
               coins := w1.player.coins - cost,
               discoveries := w1.player.discoveries
                                ++ [existing.object_name] } })
    | none =>
      let w2 : World := { w1 with
        rl_global_minute := w1.rl_global_minute + 1 }
      if imgOk then
        (.ok ⟨gobj.object_name, true, true, cost⟩,
         { w2 with
             objects := w2.objects ++ [gobj],
             recipes := w2.recipes ++ [⟨a.id, b.id, gobj.object_name⟩],
             player := { w2.player with
               coins := w2.player.coins - cost,
               discoveries := w2.player.discoveries
                                ++ [gobj.object_name] } })
      else (.error .imageFailed, w2)

/-- `views.craft_objects`: daily/global rate-limit checks, discovery and
same-era preconditions, pair canonicalization, crafting cost from the
higher era, reconcile, balance check (admins may go negative), then the
existing-recipe / drift / generation branches.  The limits and the
predefined-recipe facts (`predefExists`: `get_predefined_recipe` returned a
spec; `predefMatches`: `validate_predefined_match` held) are arguments. -/
def craft_objects (w : World) (aIn bIn : GameObject) (now : ℚ)
    (isAdmin : Bool) (udl gdl gml : Nat) (predefExists predefMatches : Bool)
    (gen : Option GameObject) (imgOk : Bool) :
    Except CraftErr CraftOk × World :=
  if udl ≤ w.rl_user_daily then (.error .rateLimitedDaily, w)
  else if gdl ≤ w.rl_global_daily then (.error .rateLimitedGlobalDaily, w)
  else if gml ≤ w.rl_global_minute then (.error .rateLimitedGlobal, w)
  else if aIn.object_name ∉ w.player.discoveries then (.error .forbiddenA, w)
  else if bIn.object_name ∉ w.player.discoveries then (.error .forbiddenB, w)
  else if aIn.era_name ≠ bIn.era_name then (.error .eraMismatch, w)
  else
    let a := if bIn.id < aIn.id then bIn else aIn
    let b := if bIn.id < aIn.id then aIn else bIn
    let cost := crafting_cost_of (get_higher_era a.era_name b.era_name)
    let w1 : World :=
      { w with player := update_player_coins w.objects now w.player }
    if w1.player.coins < cost ∧ isAdmin = false then
      (.error .insufficientCoins, w1)
    else
      match w1.recipes.find? (fun q => q.a_id == a.id && q.b_id == b.id) with
      | some r =>
        if predefExists = true ∧ predefMatches = false then
          craftGenerate
            { w1 with
                objects := w1.objects.filter
                  (fun o => o.object_name != r.result_name),
                recipes := w1.recipes.filter (fun q => q != r) }
            a b cost gen imgOk
        else
          (.ok ⟨r.result_name,
                !(w1.player.discoveries.contains r.result_name), false, cost⟩,
           { w1 with player := { w1.player with
               coins := w1.player.coins - cost,
               discoveries := insertNew r.result_name
                                w1.player.discoveries } })
      | none => craftGenerate w1 a b cost gen imgOk

/-- C7, amended. When the canonicalized pair has a stored recipe and no
predefined constraint exists (or the stored result still matches it), craft
returns the stored result with `newly_created = false`, grants the
Discovery if missing, leaves all four rate-limit counters and the object
and recipe tables untouched, is independent of the generation oracle — and
debits `crafting_cost(higher_era(a,b))` *unconditionally*: fee-exemption
only waives the sufficiency check (the balance may go negative), it does
not skip the debit. -/
theorem claim_C7_existing_recipe (w : World) (aIn bIn : GameObject)
    (now : ℚ) (isAdmin : Bool) (udl gdl gml : Nat) (pe pm : Bool)
    (gen : Option GameObject) (imgOk : Bool) (r : Recipe)
    (h1 : w.rl_user_daily < udl) (h2 : w.rl_global_daily < gdl)
    (h3 : w.rl_global_minute < gml)
    (ha : aIn.object_name ∈ w.player.discoveries)
    (hb : bIn.object_name ∈ w.player.discoveries)
    (heq : aIn.era_name = bIn.era_name)
    (hid : ¬ bIn.id < aIn.id)
    (hcoins : isAdmin = true ∨
      crafting_cost_of (get_higher_era aIn.era_name bIn.era_name)
        ≤ (update_player_coins w.objects now w.player).coins)
    (hrec : w.recipes.find? (fun q => q.a_id == aIn.id && q.b_id == bIn.id)
        = some r)
    (hpredef : pe = false ∨ pm = true) :
    craft_objects w aIn bIn now isAdmin udl gdl gml pe pm gen imgOk
      = (.ok ⟨r.result_name,
             !((update_player_coins w.objects now w.player).discoveries.contains
                 r.result_name),
             false,
             crafting_cost_of (get_higher_era aIn.era_name bIn.era_name)⟩,
         { w with player :=
             { update_player_coins w.objects now w.player with
               coins := (update_player_coins w.objects now w.player).coins
                 - crafting_cost_of (get_higher_era aIn.era_name bIn.era_name),
               discoveries := insertNew r.result_name
                 (update_player_coins w.objects now w.player).discoveries } }) := by
  have hfund : ¬((update_player_coins w.objects now w.player).coins
      < crafting_cost_of (get_higher_era aIn.era_name bIn.era_name)
      ∧ isAdmin = false) := by
    rintro ⟨hlt, hf⟩
    rcases hcoins with h | h
    · rw [h] at hf
      exact Bool.noConfusion hf
    · exact absurd hlt (not_lt.mpr h)
  have hdrift : ¬(pe = true ∧ pm = false) := by
    rintro ⟨hpe, hpm⟩
    rcases hpredef with h | h
    · rw [h] at hpe
      exact Bool.noConfusion hpe
    · rw [h] at hpm
      exact Bool.noConfusion hpm
  simp only [craft_objects]
  rw [if_neg (not_le.mpr h1), if_neg (not_le.mpr h2), if_neg (not_le.mpr h3),
      if_neg (not_not_intro ha), if_neg (not_not_intro hb),
      if_neg (not_not_intro heq), if_neg hid, if_neg hid]
  simp only [hrec]
  rw [if_neg hfund, if_neg hdrift]

def craftA : GameObject :=
  { baseObject with id := 31, object_name := "Stick" }

def craftB : GameObject :=
  { baseObject with id := 32, object_name := "Stone" }

def craftC : GameObject :=
  { baseObject with id := 33, object_name := "Axe" }

/-- A fee-exempt (admin) account holding 0 coins, with the recipe
Stick + Stone = Axe already stored and everything discovered. -/
def adminWorld : World :=
  { player := { coins := 0, time_crystals := 0,
                current_era := "Hunter-Gatherer", last_coin_update := 0,
                placed := [], era_unlocks := ["Hunter-Gatherer"],
                discoveries := ["Stick", "Stone", "Axe"] },
    objects := [craftA, craftB, craftC],
    recipes := [⟨31, 32, "Axe"⟩],
    rl_user_minute := 0, rl_global_minute := 0,
    rl_user_daily := 0, rl_global_daily := 0 }

/-- C7, counterexample. The claim exempts fee-exempt players from the
debit; in the code fee-exemption only waives the sufficiency check: the
admin account crafting a stored recipe with 0 coins is debited the full
Hunter-Gatherer crafting cost of 100 and ends at -100 coins. -/
theorem claim_C7_counterexample :
    (craft_objects adminWorld craftA craftB 0 true 1000 4000 50 false true
        none true).1 = .ok ⟨"Axe", false, false, 100⟩
    ∧ (craft_objects adminWorld craftA craftB 0 true 1000 4000 50 false true
        none true).2.player.coins = -100 := by
  constructor <;>
    norm_num [craft_objects, craftGenerate, update_player_coins, buildPhase,
      retirePhase, accrualPhase, processKeystone, buildCompleted,
      completeBuild, buildFix, retiringNow, retireFix, operationalAt,
      modsFor, incomeMultiplier, insertNew, grantStarters, crafting_cost_of,
      ERA_CRAFTING_COSTS, get_higher_era, eraIndex, ERAS, adminWorld,
      craftA, craftB, craftC, baseObject, List.find?]

/-- A standard (non-exempt) account with 500 coins over the same tables. -/
def richWorld : World :=
  { adminWorld with player := { adminWorld.player with coins := 500 } }

/-- Witness for C7 (amended) at the stored Stick + Stone = Axe recipe for a
standard player holding 500 coins. -/
theorem claim_C7_existing_recipe_witness :
    richWorld.recipes.find? (fun q => q.a_id == craftA.id
        && q.b_id == craftB.id) = some ⟨31, 32, "Axe"⟩
    ∧ craft_objects richWorld craftA craftB 0 false 20 4000 50 false true
        none true
      = (.ok ⟨"Axe",
             !((update_player_coins richWorld.objects 0
                 richWorld.player).discoveries.contains "Axe"),
             false,
             crafting_cost_of (get_higher_era craftA.era_name
               craftB.era_name)⟩,
         { richWorld with player :=
             { update_player_coins richWorld.objects 0 richWorld.player with
               coins := (update_player_coins richWorld.objects 0
                   richWorld.player).coins
                 - crafting_cost_of (get_higher_era craftA.era_name
                     craftB.era_name),
               discoveries := insertNew "Axe"
                 (update_player_coins richWorld.objects 0
                   richWorld.player).discoveries } }) := by
  refine ⟨by decide, ?_⟩
  exact claim_C7_existing_recipe richWorld craftA craftB 0 false 20 4000 50
    false true none true ⟨31, 32, "Axe"⟩ (by decide) (by decide) (by decide)
    (by decide) (by decide) (by decide) (by decide)
    (Or.inr (by norm_num [update_player_coins, buildPhase, retirePhase,
      accrualPhase, processKeystone, buildCompleted, completeBuild, buildFix,
      retiringNow, retireFix, operationalAt, modsFor, incomeMultiplier,
      insertNew, grantStarters, crafting_cost_of, ERA_CRAFTING_COSTS,
      get_higher_era, eraIndex, ERAS, richWorld, adminWorld, craftA, craftB,
      craftC, baseObject]))
    (by decide) (Or.inl rfl)

/-- C8. For discovered inputs from different eras (with the rate-limit
checks passing, which precede the era check), craft returns `EraMismatch`
and returns the world exactly as it was: no balance is touched and no
rate-limit counter — per-player or global, per-minute or daily — is
incremented. -/
theorem claim_C8_era_mismatch (w : World) (aIn bIn : GameObject) (now : ℚ)
    (isAdmin : Bool) (udl gdl gml : Nat) (pe pm : Bool)
    (gen : Option GameObject) (imgOk : Bool)
    (h1 : w.rl_user_daily < udl) (h2 : w.rl_global_daily < gdl)
    (h3 : w.rl_global_minute < gml)
    (ha : aIn.object_name ∈ w.player.discoveries)
    (hb : bIn.object_name ∈ w.player.discoveries)
    (hne : aIn.era_name ≠ bIn.era_name) :
    craft_objects w aIn bIn now isAdmin udl gdl gml pe pm gen imgOk
      = (.error .eraMismatch, w) := by
  simp only [craft_objects]
  rw [if_neg (not_le.mpr h1), if_neg (not_le.mpr h2), if_neg (not_le.mpr h3),
      if_neg (not_not_intro ha), if_neg (not_not_intro hb), if_pos hne]

def craftAg : GameObject :=
  { baseObject with id := 34, object_name := "Wheat Bundle",
                    era_name := "Agriculture" }

/-- A player who has discovered one Hunter-Gatherer and one Agriculture
object. -/
def mixWorld : World :=
  { player := { coins := 500, time_crystals := 0,
                current_era := "Hunter-Gatherer", last_coin_update := 0,
                placed := [], era_unlocks := ["Hunter-Gatherer"],
                discoveries := ["Stick", "Wheat Bundle"] },
    objects := [craftA, craftAg], recipes := [],
    rl_user_minute := 0, rl_global_minute := 0,
    rl_user_daily := 0, rl_global_daily := 0 }

/-- Witness for C8: combining the Hunter-Gatherer Stick with the
Agriculture Wheat Bundle is rejected with the world unchanged. -/
theorem claim_C8_era_mismatch_witness :
    craftA.era_name ≠ craftAg.era_name
    ∧ craft_objects mixWorld craftA craftAg 0 false 20 4000 50 false true
        none true = (.error .eraMismatch, mixWorld) := by
  exact ⟨by decide,
    claim_C8_era_mismatch mixWorld craftA craftAg 0 false 20 4000 50 false
      true none true (by decide) (by decide) (by decide) (by decide)
      (by decide) (by decide)⟩

/-- C9. When there is no stored recipe and the external generation call
fails (or its response cannot be parsed), craft errors with the four
rate-limit increments committed — quota consumed even on failure — but
with no currency debit and no `GameObject`, `CraftingRecipe` or `Discovery`
row created: the player slice is exactly the reconciled one and the object
and recipe tables are exactly the input ones. -/
theorem claim_C9_upstream_failure (w : World) (aIn bIn : GameObject)
    (now : ℚ) (isAdmin : Bool) (udl gdl gml : Nat) (pe pm : Bool)
    (imgOk : Bool)
    (h1 : w.rl_user_daily < udl) (h2 : w.rl_global_daily < gdl)
    (h3 : w.rl_global_minute < gml)
    (ha : aIn.object_name ∈ w.player.discoveries)
    (hb : bIn.object_name ∈ w.player.discoveries)
    (heq : aIn.era_name = bIn.era_name)
    (hid : ¬ bIn.id < aIn.id)
    (hcoins : isAdmin = true ∨
      crafting_cost_of (get_higher_era aIn.era_name bIn.era_name)
        ≤ (update_player_coins w.objects now w.player).coins)
    (hrec : w.recipes.find? (fun q => q.a_id == aIn.id && q.b_id == bIn.id)
        = none) :
    craft_objects w aIn bIn now isAdmin udl gdl gml pe pm none imgOk
      = (.error .upstreamFailed,
         { w with player := update_player_coins w.objects now w.player,
                  rl_user_minute := w.rl_user_minute + 1,
                  rl_global_minute := w.rl_global_minute + 1,
                  rl_user_daily := w.rl_user_daily + 1,
                  rl_global_daily := w.rl_global_daily + 1 }) := by
  have hfund : ¬((update_player_coins w.objects now w.player).coins
      < crafting_cost_of (get_higher_era aIn.era_name bIn.era_name)
      ∧ isAdmin = false) := by
    rintro ⟨hlt, hf⟩
    rcases hcoins with h | h
    · rw [h] at hf
      exact Bool.noConfusion hf
    · exact absurd hlt (not_lt.mpr h)
  simp only [craft_objects]
  rw [if_neg (not_le.mpr h1), if_neg (not_le.mpr h2), if_neg (not_le.mpr h3),
      if_neg (not_not_intro ha), if_neg (not_not_intro hb),
      if_neg (not_not_intro heq), if_neg hid, if_neg hid]
  simp only [hrec]
  rw [if_neg hfund]
  rfl

/-- The stored-recipe table emptied: crafting Stick + Stone must generate. -/
def freshWorld : World :=
  { richWorld with recipes := [] }

/-- Witness for C9: with no stored recipe and a failing generation call,
the craft errors with only the rate-limit counters advanced. -/
theorem claim_C9_upstream_failure_witness :
    freshWorld.recipes.find? (fun q => q.a_id == craftA.id
        && q.b_id == craftB.id) = none
    ∧ craft_objects freshWorld craftA craftB 0 false 20 4000 50 false true
        none true
      = (.error .upstreamFailed,
         { freshWorld with
             player := update_player_coins freshWorld.objects 0
               freshWorld.player,
             rl_user_minute := 1, rl_global_minute := 1,
             rl_user_daily := 1, rl_global_daily := 1 }) := by
  refine ⟨by decide, ?_⟩
  exact claim_C9_upstream_failure freshWorld craftA craftB 0 false 20 4000 50
    false true true (by decide) (by decide) (by decide) (by decide)
    (by decide) (by decide) (by decide)
    (Or.inr (by norm_num [update_player_coins, buildPhase, retirePhase,
      accrualPhase, processKeystone, buildCompleted, completeBuild, buildFix,
      retiringNow, retireFix, operationalAt, modsFor, incomeMultiplier,
      insertNew, grantStarters, crafting_cost_of, ERA_CRAFTING_COSTS,
      get_higher_era, eraIndex, ERAS, freshWorld, richWorld, adminWorld,
      craftA, craftB, craftC, baseObject]))
    (by decide)

/-! ## Removal (`views.remove_object`) -/

/-- `views.remove_object`: reconcile, look the placement up by id, credit
`cost × sellback_pct` and delete the row. -/
def remove_object (catalog : List GameObject) (now : ℚ) (s : PlayerState)
    (pid : Nat) : Option ℚ × PlayerState :=
  let s1 := update_player_coins catalog now s
  match s1.placed.find? (fun p => p.id == pid) with
  | none => (none, s1)
  | some p =>
      (some (p.game_object.cost * p.game_object.sellback_pct),
       { s1 with
           coins := s1.coins + p.game_object.cost * p.game_object.sellback_pct,
           placed := s1.placed.filter (fun q => q.id != pid) })

/-- C10. Removing a placed instance always credits
`cost × sellback_pct` and deletes the row, whatever the instance's flags:
a soft-retired instance (whose retirement payout the embedded reconcile has
already credited) still receives the full sellback refund, and a
still-building one receives the sellback refund rather than its cost. -/
theorem claim_C10_remove_sellback (catalog : List GameObject) (now : ℚ)
    (s : PlayerState) (pid : Nat) (p : PlacedObject)
    (hp : (update_player_coins catalog now s).placed.find?
        (fun q => q.id == pid) = some p) :
    remove_object catalog now s pid
      = (some (p.game_object.cost * p.game_object.sellback_pct),
         { update_player_coins catalog now s with
             coins := (update_player_coins catalog now s).coins
               + p.game_object.cost * p.game_object.sellback_pct,
             placed := (update_player_coins catalog now s).placed.filter
               (fun q => q.id != pid) })
    ∧ ∀ q ∈ (remove_object catalog now s pid).2.placed, q.id ≠ pid := by
  have hmain : remove_object catalog now s pid
      = (some (p.game_object.cost * p.game_object.sellback_pct),
         { update_player_coins catalog now s with
             coins := (update_player_coins catalog now s).coins
               + p.game_object.cost * p.game_object.sellback_pct,
             placed := (update_player_coins catalog now s).placed.filter
               (fun q => q.id != pid) }) := by
    simp only [remove_object, hp]
  refine ⟨hmain, ?_⟩
  intro q hq
  rw [hmain] at hq
  simp only [List.mem_filter, bne_iff_ne] at hq
  exact hq.2

/-- Witness for C10: the soft-retired Hut (retired during the embedded
reconcile, payout 10) is removed and still refunds its full sellback of
10, ending at 20 coins with an empty canvas. -/
theorem claim_C10_remove_sellback_witness :
    (update_player_coins [] 10 retireeState).placed.find?
        (fun q => q.id == 15) = some { retiringRow with is_operational := false }
    ∧ (remove_object [] 10 retireeState 15).1 = some 10
    ∧ (remove_object [] 10 retireeState 15).2.coins = 20
    ∧ (remove_object [] 10 retireeState 15).2.placed = [] := by
  have h := claim_C10_remove_sellback [] 10 retireeState 15
    ({ retiringRow with is_operational := false }) (by decide)
  refine ⟨by decide, ?_, ?_, ?_⟩
  · rw [h.1]
    norm_num [retiringRow, retireeObject, baseObject]
  · rw [h.1]
    norm_num [update_player_coins, buildPhase, retirePhase, accrualPhase,
      processKeystone, buildCompleted, completeBuild, buildFix, retiringNow,
      retireFix, operationalAt, modsFor, incomeMultiplier, insertNew,
      grantStarters, retireeState, retiringRow, retireeObject, baseObject]
  · rw [h.1]
    decide
